import Mathlib

/-!
Verification of the patina-rss storage core.

Shallow embedding of `patina-core` (Rust, SQLite via rusqlite) in Lean 4.

Modelling conventions:
* Each SQLite table is a `List` of row structures inside `DbState`; row ids are
  `Int` (SQLite `INTEGER`), timestamps are `Int`, `REAL` columns are modelled
  as `ℚ` (exact rationals standing in for IEEE doubles; every arithmetic fact
  proved here about weights/scores also holds of the double computation at the
  claimed values, which are far from rounding boundaries).
* `chrono::Utc::now().timestamp()` is modelled as an explicit `now : Int`
  parameter to each state-changing operation.
* `ORDER BY RANDOM()` is modelled by an explicit permutation parameter
  `rand : List ArticleRow → List ArticleRow`; theorems that depend on it
  assume it permutes its input.
* SQLite assigns `INTEGER PRIMARY KEY` rowids as `max existing rowid + 1`
  (no AUTOINCREMENT is used); `freshId` models this.  The connection-level
  `last_insert_rowid()` is modelled as the `last_rowid` field of `DbState`;
  it is updated only by statements that actually insert a row, exactly as in
  SQLite (an `INSERT OR IGNORE` that ignores, or an `ON CONFLICT DO UPDATE`
  that updates, leaves it untouched).
* IMPORTANT for cascades: `Database::new` opens the connection with
  `Connection::open` and `run_migrations` only executes the `CREATE TABLE`
  batch.  No `PRAGMA foreign_keys = ON` is ever executed, and SQLite disables
  foreign-key enforcement by default, so the declared
  `ON DELETE CASCADE` clauses are inert at runtime: `DELETE FROM feeds`
  removes only `feeds` rows.  The embedding models the runtime behaviour.
-/

unseal Rat.mul Rat.add Rat.inv Rat.sub

/-- `PatinaError` from `src/patina-core/src/lib.rs`. -/
inductive PatinaError where
  | DatabaseError (msg : String)
  | NetworkError (msg : String)
  | ParseError (msg : String)
  | NotFound
  | InvalidUrl (msg : String)
  | IoError (msg : String)
  | FeedAlreadyExists (title : String)
deriving Repr, DecidableEq

/-- Row of the `feeds` table. -/
structure FeedRow where
  id : Int
  title : String
  url : String
  site_url : Option String
  last_fetched_at : Option Int
  created_at : Int
deriving Repr, DecidableEq

/-- Row of the `articles` table. -/
structure ArticleRow where
  id : Int
  feed_id : Int
  title : String
  url : String
  summary : Option String
  published_at : Option Int
  fetched_at : Int
  is_read : Bool
  read_at : Option Int
deriving Repr, DecidableEq

/-- Row of the `reading_patterns` table.  `weight REAL` modelled as `ℚ`. -/
structure PatternRow where
  id : Int
  pattern_type : String
  value : String
  source : String
  weight : ℚ
  created_at : Int
deriving Repr, DecidableEq

/-- Row of the `article_topics` table.  `score REAL` modelled as `ℚ`. -/
structure TopicRow where
  article_id : Int
  topic : String
  score : ℚ
deriving Repr, DecidableEq

/-- The persistent state behind `Database` (the SQLite file), plus the
connection-level `last_insert_rowid()` register. -/
structure DbState where
  feeds : List FeedRow
  articles : List ArticleRow
  patterns : List PatternRow
  article_topics : List TopicRow
  last_rowid : Int
deriving Repr, DecidableEq

/-- The empty store produced by `run_migrations` on a fresh file. -/
def DbState.empty : DbState := ⟨[], [], [], [], 0⟩

/-- `Feed` record from `src/patina-core/src/storage/models.rs`: a feed row
together with the derived `unread_count`. -/
structure Feed where
  id : Int
  title : String
  url : String
  site_url : Option String
  last_fetched_at : Option Int
  created_at : Int
  unread_count : Int
deriving Repr, DecidableEq

/-- `Article` record from `models.rs` (query result: row + joined feed title). -/
structure Article where
  id : Int
  feed_id : Int
  title : String
  url : String
  summary : Option String
  published_at : Option Int
  fetched_at : Int
  is_read : Bool
  read_at : Option Int
  feed_title : Option String
deriving Repr, DecidableEq

/-- `ParsedArticle` from `models.rs`. -/
structure ParsedArticle where
  title : String
  url : String
  summary : Option String
  published_at : Option Int
deriving Repr, DecidableEq

/-- `ParsedFeed` from `models.rs`. -/
structure ParsedFeed where
  title : String
  url : String
  site_url : Option String
  articles : List ParsedArticle
deriving Repr, DecidableEq

/-- `ReadingPattern` record from `models.rs` (as returned to callers). -/
structure ReadingPattern where
  id : Int
  pattern_type : String
  value : String
  source : String
  weight : ℚ
  created_at : Int
deriving Repr, DecidableEq

/-- Contiguous-subsequence test on character lists: `needle` occurs in `hay`
iff it is a prefix of some suffix of `hay`. -/
def containsSeq (hay needle : List Char) : Bool :=
  needle.isPrefixOf hay ||
    match hay with
    | [] => false
    | _ :: t => containsSeq t needle

/-- Rust `str::contains` (substring test), on the character sequences. -/
def strContains (hay needle : String) : Bool :=
  containsSeq hay.data needle.data

/-- Rust `str::to_lowercase`, character by character (`String.toLower` is the
same map over the characters, but is written with byte positions that the
kernel cannot evaluate; all strings in the claims are ASCII, where Rust's
Unicode lowering and `Char.toLower` agree). -/
def strToLower (s : String) : String :=
  ⟨s.data.map Char.toLower⟩

/-- Rust `str::split(pred)` on the character list: the pieces between
separator characters, empty pieces included. -/
def splitChars (p : Char → Bool) : List Char → List (List Char)
  | [] => [[]]
  | c :: rest =>
    let r := splitChars p rest
    if p c then [] :: r
    else
      match r with
      | [] => [[c]]
      | w :: ws => (c :: w) :: ws

/-- Rowid assignment for `INTEGER PRIMARY KEY` without AUTOINCREMENT:
one more than the largest rowid in the table (1 on an empty table). -/
def freshId (ids : List Int) : Int := ids.foldl max 0 + 1

/-- `SELECT COUNT(*) FROM articles a WHERE a.feed_id = ? AND a.is_read = 0`,
the derived unread count used by every feed query. -/
def unreadCount (s : DbState) (feed_id : Int) : Int :=
  ((s.articles.filter (fun a => a.feed_id = feed_id && !a.is_read)).length : Int)

/-- Assemble the `Feed` record a feed query returns for row `f`. -/
def toFeed (s : DbState) (f : FeedRow) : Feed :=
  ⟨f.id, f.title, f.url, f.site_url, f.last_fetched_at, f.created_at, unreadCount s f.id⟩

/-- `Database::insert_feed`: a plain `INSERT` into `feeds`; the
`url UNIQUE` constraint makes it fail when the URL is already present
(surfaced by rusqlite as a generic database error).  On success the returned
`Feed` carries the assigned rowid and `unread_count: 0`. -/
def insert_feed (s : DbState) (feed : ParsedFeed) (now : Int) :
    Except PatinaError (Feed × DbState) :=
  if s.feeds.any (fun f => f.url = feed.url) then
    .error (.DatabaseError "UNIQUE constraint failed: feeds.url")
  else
    let id := freshId (s.feeds.map (·.id))
    let row : FeedRow := ⟨id, feed.title, feed.url, feed.site_url, some now, now⟩
    .ok (⟨id, feed.title, feed.url, feed.site_url, some now, now, 0⟩,
         { s with feeds := s.feeds ++ [row], last_rowid := id })

/-- `Database::get_feed`. -/
def get_feed (s : DbState) (id : Int) : Option Feed :=
  (s.feeds.find? (fun f => f.id = id)).map (toFeed s)

/-- `Database::get_feed_by_url`. -/
def get_feed_by_url (s : DbState) (url : String) : Option Feed :=
  (s.feeds.find? (fun f => f.url = url)).map (toFeed s)

/-- `Database::get_all_feeds`: all feeds `ORDER BY f.title COLLATE NOCASE`,
each with its computed unread count.  The stable insertion sort models
SQLite's ordering; NOCASE is ASCII case folding, i.e. `String.toLower`. -/
def get_all_feeds (s : DbState) : List Feed :=
  (s.feeds.insertionSort (fun a b => strToLower a.title ≤ strToLower b.title)).map (toFeed s)

/-- `Database::delete_feed`: executes only `DELETE FROM feeds WHERE id = ?1`.
The schema's `ON DELETE CASCADE` clauses never fire because the connection
never runs `PRAGMA foreign_keys = ON` (SQLite's default is OFF), so articles
and article_topics are left in place. -/
def delete_feed (s : DbState) (id : Int) : DbState :=
  { s with feeds := s.feeds.filter (fun f => f.id ≠ id) }

/-- What `delete_feed` would do were foreign-key enforcement enabled
(the behaviour the schema's `ON DELETE CASCADE` declares): feeds row,
its articles, and their article_topics all removed. -/
def delete_feed_cascading (s : DbState) (id : Int) : DbState :=
  let deadArticles := s.articles.filter (fun a => a.feed_id = id)
  { s with
    feeds := s.feeds.filter (fun f => f.id ≠ id),
    articles := s.articles.filter (fun a => a.feed_id ≠ id),
    article_topics := s.article_topics.filter
      (fun t => !(deadArticles.any (fun a => a.id = t.article_id))) }

/-- `Database::update_feed_metadata`. -/
def update_feed_metadata (s : DbState) (id : Int) (feed : ParsedFeed) (now : Int) : DbState :=
  { s with feeds := s.feeds.map (fun f =>
      if f.id = id then { f with title := feed.title, site_url := feed.site_url,
                                 last_fetched_at := some now }
      else f) }

/-- `Database::insert_article`: `INSERT OR IGNORE` under `UNIQUE(feed_id, url)`.
A duplicate `(feed_id, url)` leaves the table and `last_insert_rowid()`
untouched; the call still succeeds, returning an `Article` built from the
inputs and the (then stale) `last_insert_rowid()`. -/
def insert_article (s : DbState) (feed_id : Int) (article : ParsedArticle) (now : Int) :
    Except PatinaError (Article × DbState) :=
  let dup := s.articles.any (fun a => a.feed_id = feed_id && a.url = article.url)
  let s' :=
    if dup then s
    else
      let id := freshId (s.articles.map (·.id))
      { s with
        articles := s.articles ++
          [⟨id, feed_id, article.title, article.url, article.summary,
            article.published_at, now, false, none⟩],
        last_rowid := id }
  .ok (⟨s'.last_rowid, feed_id, article.title, article.url, article.summary,
        article.published_at, now, false, none, none⟩, s')

/-- Assemble the `Article` record of the article queries
(`JOIN feeds f ON f.id = a.feed_id` supplies `feed_title`). -/
def toArticle (s : DbState) (a : ArticleRow) : Article :=
  ⟨a.id, a.feed_id, a.title, a.url, a.summary, a.published_at, a.fetched_at,
   a.is_read, a.read_at, (s.feeds.find? (fun f => f.id = a.feed_id)).map (·.title)⟩

/-- `Database::get_article`. -/
def get_article (s : DbState) (id : Int) : Option Article :=
  ((s.articles.filter (fun a => s.feeds.any (fun f => f.id = a.feed_id))).find?
    (fun a => a.id = id)).map (toArticle s)

/-- `Database::mark_article_read`: `UPDATE articles SET is_read = 1,
read_at = ?1 WHERE id = ?2` (a no-op when no row has that id). -/
def mark_article_read (s : DbState) (id : Int) (now : Int) : DbState :=
  { s with articles := s.articles.map (fun a =>
      if a.id = id then { a with is_read := true, read_at := some now } else a) }

/-- `Database::mark_article_unread`: `UPDATE articles SET is_read = 0,
read_at = NULL WHERE id = ?1`. -/
def mark_article_unread (s : DbState) (id : Int) : DbState :=
  { s with articles := s.articles.map (fun a =>
      if a.id = id then { a with is_read := false, read_at := none } else a) }

/-- `Database::get_reading_patterns`: `ORDER BY weight DESC` (stable sort;
SQLite's tie order is arbitrary). -/
def get_reading_patterns (s : DbState) : List PatternRow :=
  s.patterns.insertionSort (fun a b => b.weight ≤ a.weight)

/-- `Database::add_reading_pattern`: upsert under `UNIQUE(pattern_type, value)`
— insert with weight 1.0, `ON CONFLICT DO UPDATE SET weight = weight + 0.1`.
The returned record always reports weight 1.0 and the connection's
`last_insert_rowid()` (stale on the conflict path), exactly as the code
builds it. -/
def add_reading_pattern (s : DbState) (pattern_type value source : String) (now : Int) :
    ReadingPattern × DbState :=
  let dup := s.patterns.any (fun p => p.pattern_type = pattern_type && p.value = value)
  let s' :=
    if dup then
      { s with patterns := s.patterns.map (fun p =>
          if p.pattern_type = pattern_type && p.value = value then
            { p with weight := p.weight + 1/10 }   -- `weight = weight + 0.1`
          else p) }
    else
      let id := freshId (s.patterns.map (·.id))
      { s with
        patterns := s.patterns ++ [⟨id, pattern_type, value, source, 1, now⟩],
        last_rowid := id }
  (⟨s'.last_rowid, pattern_type, value, source, 1, now⟩, s')

/-- `Database::delete_reading_pattern`. -/
def delete_reading_pattern (s : DbState) (id : Int) : DbState :=
  { s with patterns := s.patterns.filter (fun p => p.id ≠ id) }

/-- `Database::reset_reading_patterns`. -/
def reset_reading_patterns (s : DbState) : DbState :=
  { s with patterns := [] }

/-- `Database::record_article_topic`: `INSERT OR REPLACE` under the
`(article_id, topic)` primary key. -/
def record_article_topic (s : DbState) (article_id : Int) (topic : String) (score : ℚ) :
    DbState :=
  { s with
    article_topics :=
      (s.article_topics.filter
        (fun t => !(t.article_id = article_id && t.topic = topic))) ++
      [⟨article_id, topic, score⟩],
    last_rowid := s.last_rowid }

/-- The unread articles that survive `JOIN feeds f ON f.id = a.feed_id`
(articles whose feed row is missing — possible because cascades are inert —
drop out of every article query). -/
def unreadJoined (s : DbState) : List ArticleRow :=
  s.articles.filter (fun a => !a.is_read && s.feeds.any (fun f => f.id = a.feed_id))

/-- `COALESCE(SUM(at.score), 0)` over the topic rows of article `a` whose
topic lies in `topics` (`at.topic IN (...)`). -/
def topicScore (s : DbState) (topics : List String) (a : ArticleRow) : ℚ :=
  ((s.article_topics.filter
      (fun t => t.article_id = a.id && topics.contains t.topic)).map (·.score)).sum

/-- `Database::get_unread_articles_with_topics`.  With an empty topic list:
unread articles `ORDER BY RANDOM() LIMIT ?1` — the permutation `rand` models
`RANDOM()`.  Otherwise: unread articles ordered by summed matching topic
score descending, ties random — modelled as a stable sort by score of the
randomly permuted candidates. -/
def get_unread_articles_with_topics (s : DbState) (topics : List String) (limit : Nat)
    (rand : List ArticleRow → List ArticleRow) : List Article :=
  if topics.isEmpty then
    ((rand (unreadJoined s)).take limit).map (toArticle s)
  else
    (((rand (unreadJoined s)).insertionSort
        (fun a b => topicScore s topics b ≤ topicScore s topics a)).take limit).map
      (toArticle s)

/-- `Database::get_top_read_topics` grouping step:
`SELECT at.topic, SUM(at.score) FROM article_topics at JOIN articles a ON
a.id = at.article_id WHERE a.is_read = 1 GROUP BY at.topic`.  Group output
order is arbitrary in SQLite; the model lists groups in first-occurrence
order before the sort. -/
def readTopicScores (s : DbState) : List (String × ℚ) :=
  let rows := s.article_topics.filter
    (fun t => s.articles.any (fun a => a.id = t.article_id && a.is_read))
  ((rows.map (·.topic)).eraseDups).map
    (fun topic => (topic, ((rows.filter (fun t => t.topic = topic)).map (·.score)).sum))

/-- `Database::get_top_read_topics`: the read-topic aggregates
`ORDER BY total_score DESC LIMIT ?1` (stable sort; SQLite tie order is
arbitrary). -/
def get_top_read_topics (s : DbState) (limit : Nat) : List (String × ℚ) :=
  ((readTopicScores s).insertionSort (fun a b => b.2 ≤ a.2)).take limit

/-- `get_serendipity_articles` from `src/patina-core/src/serendipity/surfacer.rs`. -/
def get_serendipity_articles (s : DbState) (limit : Nat)
    (rand : List ArticleRow → List ArticleRow) : List Article :=
  let patterns := get_reading_patterns s
  let topics := (patterns.filter
    (fun p => p.pattern_type = "topic" || p.pattern_type = "keyword")).map (·.value)
  let excluded := (patterns.filter (fun p => p.pattern_type = "excluded")).map (·.value)
  let articles := get_unread_articles_with_topics s topics (limit * 2) rand
  let articles :=
    if excluded.isEmpty then articles
    else articles.filter (fun article =>
      let title_lower := strToLower article.title
      let summary_lower := (article.summary.map strToLower).getD ""
      !(excluded.any (fun ex =>
        let ex_lower := strToLower ex
        strContains title_lower ex_lower || strContains summary_lower ex_lower)))
  articles.take limit

/- Topic extraction, from `src/patina-core/src/serendipity/patterns.rs`. -/

/-- `STOP_WORDS` from `patterns.rs`. -/
def STOP_WORDS : List String :=
  ["the", "a", "an", "and", "or", "but", "in", "on", "at", "to", "for", "of", "with", "by",
   "from", "as", "is", "was", "are", "were", "been", "be", "have", "has", "had", "do", "does",
   "did", "will", "would", "could", "should", "may", "might", "must", "shall", "can", "need",
   "dare", "ought", "used", "it", "its", "this", "that", "these", "those", "i", "you", "he",
   "she", "we", "they", "what", "which", "who", "whom", "where", "when", "why", "how", "all",
   "each", "every", "both", "few", "more", "most", "other", "some", "such", "no", "nor", "not",
   "only", "own", "same", "so", "than", "too", "very", "just", "also", "now", "new", "one",
   "two", "first", "last", "many", "much", "get", "got", "go", "going", "make", "made", "take",
   "use", "using", "via", "about", "into", "over", "after", "before", "between", "through"]

/-- `tokenize`: split on non-alphanumeric characters, drop empties,
lower-case. -/
def tokenize (text : String) : List String :=
  (((splitChars (fun c => !c.isAlphanum) text.data).map (fun l => String.mk l)).filter
    (fun s => !s.isEmpty)).map strToLower

/-- `is_valid_topic_word`: at least 3 bytes long (Rust `str::len` counts
bytes), not a stop word, not all ASCII digits. -/
def is_valid_topic_word (word : String) : Bool :=
  if word.utf8ByteSize < 3 then false
  else if STOP_WORDS.contains word then false
  else if word.data.all Char.isDigit then false
  else true

/-- The `HashMap` count accumulator: bump `word`'s count by `k`, creating the
entry when absent.  Rust's `HashMap` iterates in unspecified order; the model
fixes first-insertion order, which only pins down the (spec-wise arbitrary)
tie order of the final sorted output. -/
def bumpCount (m : List (String × Nat)) (word : String) (k : Nat) : List (String × Nat) :=
  if m.any (fun p => p.1 = word) then
    m.map (fun p => if p.1 = word then (p.1, p.2 + k) else p)
  else m ++ [(word, k)]

/-- The word-count map after processing the title: each valid tokenized title
word bumped by 3 (`// Title words count more`). -/
def titleCounts (title : String) : List (String × Nat) :=
  (tokenize title).foldl
    (fun m word => if is_valid_topic_word word then bumpCount m word 3 else m) []

/-- The full word-count map of `extract_topics`: the title counts, then each
valid tokenized summary word bumped by 1. -/
def wordCounts (title : String) (summary : Option String) : List (String × Nat) :=
  match summary with
  | some summary =>
      (tokenize summary).foldl
        (fun m word => if is_valid_topic_word word then bumpCount m word 1 else m)
        (titleCounts title)
  | none => titleCounts title

/-- `extract_topics`: title words count 3, summary words count 1; scores are
counts normalised by the total (`ℚ` models the `f64` division); drop scores
below 0.05, sort descending (stable), keep the top 10.  Degenerate input
(total count zero) yields `ok []`. -/
def extract_topics (title : String) (summary : Option String) :
    Except PatinaError (List (String × ℚ)) :=
  let word_counts : List (String × Nat) := wordCounts title summary
  let total_count : Nat := (word_counts.map (·.2)).sum
  if total_count = 0 then .ok []
  else
    let topics : List (String × ℚ) :=
      (word_counts.map (fun p => (p.1, (p.2 : ℚ) / (total_count : ℚ)))).filter
        (fun p => 5/100 ≤ p.2)   -- `*score >= 0.05`
    let topics := topics.insertionSort (fun a b => b.2 ≤ a.2)
    .ok (topics.take 10)

/-- `update_auto_patterns` from `patterns.rs`: promote every topic among the
top-20 read-topic aggregates whose summed score is at least 2.0 into a
`("topic", value, "auto")` reading pattern. -/
def update_auto_patterns (s : DbState) (now : Int) : DbState :=
  (get_top_read_topics s 20).foldl
    (fun st p => if 2 ≤ p.2 then (add_reading_pattern st "topic" p.1 "auto" now).2 else st)
    s

/-- `PatinaCore::add_feed` from `src/patina-core/src/lib.rs`.  Network fetch
and feed parsing are out-of-scope collaborators: `fetched` is the value
`fetch_and_parse_feed(url)` would return, and `url` stands for the
already-parsed `url.as_str()`.  Per-article insert errors are discarded
(`let _ = ...`). -/
def add_feed (s : DbState) (url : String) (fetched : Except PatinaError ParsedFeed)
    (now : Int) : Except PatinaError (Feed × DbState) :=
  match get_feed_by_url s url with
  | some existing_feed => .error (.FeedAlreadyExists existing_feed.title)
  | none =>
    match fetched with
    | .error e => .error e
    | .ok feed_data =>
      match insert_feed s feed_data now with
      | .error e => .error e
      | .ok (feed, s1) =>
        let s2 := feed_data.articles.foldl
          (fun st article =>
            match insert_article st feed.id article now with
            | .ok (_, st') => st'
            | .error _ => st) s1
        match get_feed s2 feed.id with
        | some f => .ok (f, s2)
        | none => .error .NotFound

/- ### Concrete stores used by counterexamples and witnesses -/

/-- A store with one feed, one article of that feed, and one topic row of
that article. -/
def cascadeState : DbState :=
  ⟨[⟨1, "Example Feed", "https://example.com/feed.xml", none, none, 0⟩],
   [⟨1, 1, "Rust article", "https://example.com/a1", none, none, 0, false, none⟩],
   [],
   [⟨1, "rust", 1⟩],
   1⟩

/-- A store with one unread article whose title contains "cats", and a single
reading pattern `excluded="cats"`; there are no inclusion patterns. -/
def catsState : DbState :=
  ⟨[⟨1, "Pets", "https://pets.example/feed", none, none, 0⟩],
   [⟨1, 1, "All about cats", "https://pets.example/a1", none, none, 0, false, none⟩],
   [⟨1, "excluded", "cats", "manual", 1, 0⟩],
   [],
   1⟩

/-- A store with one unread article (title free of "cats") and an
`excluded="cats"` pattern; the surfacer returns the article. -/
def dogsState : DbState :=
  ⟨[⟨1, "Pets", "https://pets.example/feed", none, none, 0⟩],
   [⟨1, 1, "Dogs are nice", "https://pets.example/a2", some "A dog story", none, 0, false, none⟩],
   [⟨1, "excluded", "cats", "manual", 1, 0⟩],
   [],
   1⟩

/-- A store with two unread and one read article in one feed, and no
reading patterns. -/
def threeState : DbState :=
  ⟨[⟨1, "F", "https://f.example/feed", none, none, 0⟩],
   [⟨1, 1, "a", "https://f.example/1", none, none, 0, false, none⟩,
    ⟨2, 1, "b", "https://f.example/2", none, none, 0, false, none⟩,
    ⟨3, 1, "c", "https://f.example/3", none, none, 0, true, some 5⟩],
   [], [], 3⟩

/-- A store with one read article carrying a "rust" topic of score 3. -/
def topicState : DbState :=
  ⟨[⟨1, "F", "https://t.example/feed", none, none, 0⟩],
   [⟨1, 1, "a", "https://t.example/1", none, none, 0, true, some 1⟩],
   [],
   [⟨1, "rust", 3⟩],
   1⟩

/- ### Theorems -/

/-- C1: the claim says `delete_feed(id)` cascades through articles to
article_topics.  The code does not: the connection never runs
`PRAGMA foreign_keys = ON`, so SQLite (whose default is OFF) ignores the
schema's `ON DELETE CASCADE` and `DELETE FROM feeds WHERE id = ?1` removes
only the feeds row.  On a store with feed 1, an article of feed 1 and a
topic row of that article, deleting feed 1 leaves the article row and the
article_topics row in place — exactly what the declared cascading delete
(`delete_feed_cascading`) would have removed. -/
theorem c1_delete_feed_leaves_orphans :
    (delete_feed cascadeState 1).feeds = [] ∧
    (delete_feed cascadeState 1).articles =
      [⟨1, 1, "Rust article", "https://example.com/a1", none, none, 0, false, none⟩] ∧
    (delete_feed cascadeState 1).article_topics = [⟨1, "rust", 1⟩] ∧
    (delete_feed_cascading cascadeState 1).articles = [] ∧
    (delete_feed_cascading cascadeState 1).article_topics = [] := by
  decide

/-- Membership form of the duplicate test used by `insert_article`. -/
theorem dupArticle_iff (l : List ArticleRow) (feed_id : Int) (url : String) :
    l.any (fun a => a.feed_id = feed_id && a.url = url) = true ↔
      ∃ a ∈ l, a.feed_id = feed_id ∧ a.url = url := by
  simp [List.any_eq_true]

/-- C2: `insert_article` is idempotent on stored state.  If the store holds at
most one article for `(feed_id, url)` — the `UNIQUE(feed_id, url)` invariant —
then the first insert succeeds, and the second insert of the same parsed
article also succeeds, changes nothing about the stored state, and the state
holds exactly one row for the pair. -/
theorem c2_insert_article_idempotent (s : DbState) (feed_id : Int)
    (article : ParsedArticle) (now1 now2 : Int)
    (h : s.articles.countP (fun a => a.feed_id = feed_id && a.url = article.url) ≤ 1)
    (a1 : Article) (s1 : DbState)
    (h1 : insert_article s feed_id article now1 = .ok (a1, s1)) :
    insert_article s1 feed_id article now2 =
      .ok (⟨s1.last_rowid, feed_id, article.title, article.url, article.summary,
            article.published_at, now2, false, none, none⟩, s1) ∧
    s1.articles.countP (fun a => a.feed_id = feed_id && a.url = article.url) = 1 := by
  by_cases hd : s.articles.any (fun a => a.feed_id = feed_id && a.url = article.url) = true
  · -- the pair was already present: the first insert was ignored
    have hs1 : s1 = s := by
      simp [insert_article, hd] at h1
      exact h1.2.symm
    subst hs1
    constructor
    · simp [insert_article, hd]
    · have hpos : 0 < s1.articles.countP
          (fun a => a.feed_id = feed_id && a.url = article.url) := by
        rcases (dupArticle_iff s1.articles feed_id article.url).mp hd with ⟨a, ha, hp1, hp2⟩
        exact List.countP_pos_iff.mpr ⟨a, ha, by simp [hp1, hp2]⟩
      omega
  · -- fresh pair: the first call inserted a row for it
    have hd' : s.articles.any (fun a => a.feed_id = feed_id && a.url = article.url) = false := by
      simpa using hd
    have h0 : s.articles.countP (fun a => a.feed_id = feed_id && a.url = article.url) = 0 := by
      rw [List.countP_eq_zero]
      intro a ha hp
      exact hd ((dupArticle_iff s.articles feed_id article.url).mpr
        ⟨a, ha, by simpa using hp⟩)
    have hs1 : s1 = { s with
        articles := s.articles ++
          [⟨freshId (s.articles.map (·.id)), feed_id, article.title, article.url,
            article.summary, article.published_at, now1, false, none⟩],
        last_rowid := freshId (s.articles.map (·.id)) } := by
      simp [insert_article, hd'] at h1
      exact h1.2.symm
    subst hs1
    constructor
    · simp [insert_article, List.any_append]
    · simp [List.countP_append, h0]

/-- Witness for C2: both hypotheses hold at a concrete store and article. -/
theorem c2_insert_article_idempotent_witness :
    insert_article ⟨[], [⟨1, 1, "T", "https://x/1", none, none, 0, false, none⟩], [], [], 1⟩
        1 ⟨"T", "https://x/1", none, none⟩ 7 =
      .ok (⟨1, 1, "T", "https://x/1", none, none, 7, false, none, none⟩,
           ⟨[], [⟨1, 1, "T", "https://x/1", none, none, 0, false, none⟩], [], [], 1⟩) ∧
    (⟨[], [⟨1, 1, "T", "https://x/1", none, none, 0, false, none⟩], [], [], 1⟩ :
        DbState).articles.countP (fun a => a.feed_id = 1 && a.url = "https://x/1") = 1 :=
  c2_insert_article_idempotent DbState.empty 1 ⟨"T", "https://x/1", none, none⟩ 0 7
    (by decide) ⟨1, 1, "T", "https://x/1", none, none, 0, false, none, none⟩ _ rfl

/-- Marking article `a` read removes exactly one article (namely `a`) from the
unread count of `a`'s feed, provided article ids are unique and `a` was
unread. -/
theorem countP_mark_read (l : List ArticleRow) (a : ArticleRow) (now : Int)
    (hnodup : (l.map (·.id)).Nodup) (ha : a ∈ l) (hunread : a.is_read = false) :
    (l.map (fun x => if x.id = a.id then
        { x with is_read := true, read_at := some now } else x)).countP
      (fun x => x.feed_id = a.feed_id && !x.is_read) + 1 =
    l.countP (fun x => x.feed_id = a.feed_id && !x.is_read) := by
  induction l with
  | nil => cases ha
  | cons b t ih =>
    simp only [List.map_cons, List.nodup_cons, List.mem_map] at hnodup
    rcases List.mem_cons.mp ha with rfl | hat
    · -- the head is the article being marked
      have hmap : t.map (fun x => if x.id = a.id then
          { x with is_read := true, read_at := some now } else x) = t := by
        have hcongr : ∀ x ∈ t, (if x.id = a.id then
            { x with is_read := true, read_at := some now } else x) = id x := by
          intro x hx
          have hne : x.id ≠ a.id := fun he => hnodup.1 ⟨x, hx, he⟩
          simp [hne]
        rw [List.map_congr_left hcongr, List.map_id]
      simp [List.countP_cons, hmap, hunread]
    · -- the head is some other article
      have hbid : b.id ≠ a.id := by
        intro he
        exact hnodup.1 ⟨a, hat, he.symm⟩
      have ihx := ih hnodup.2 hat
      simp only [List.map_cons, List.countP_cons]
      rw [if_neg hbid]
      omega

/-- Marking article `a` unread adds exactly one article (namely `a`) to the
unread count of `a`'s feed, provided article ids are unique and `a` was
read. -/
theorem countP_mark_unread (l : List ArticleRow) (a : ArticleRow)
    (hnodup : (l.map (·.id)).Nodup) (ha : a ∈ l) (hread : a.is_read = true) :
    (l.map (fun x => if x.id = a.id then
        { x with is_read := false, read_at := none } else x)).countP
      (fun x => x.feed_id = a.feed_id && !x.is_read) =
    l.countP (fun x => x.feed_id = a.feed_id && !x.is_read) + 1 := by
  induction l with
  | nil => cases ha
  | cons b t ih =>
    simp only [List.map_cons, List.nodup_cons, List.mem_map] at hnodup
    rcases List.mem_cons.mp ha with rfl | hat
    · have hmap : t.map (fun x => if x.id = a.id then
          { x with is_read := false, read_at := none } else x) = t := by
        have hcongr : ∀ x ∈ t, (if x.id = a.id then
            { x with is_read := false, read_at := none } else x) = id x := by
          intro x hx
          have hne : x.id ≠ a.id := fun he => hnodup.1 ⟨x, hx, he⟩
          simp [hne]
        rw [List.map_congr_left hcongr, List.map_id]
      simp [List.countP_cons, hmap, hread]
    · have hbid : b.id ≠ a.id := by
        intro he
        exact hnodup.1 ⟨a, hat, he.symm⟩
      have ihx := ih hnodup.2 hat
      simp only [List.map_cons, List.countP_cons]
      rw [if_neg hbid]
      omega

/-- C3: every feed query derives `unread_count` as the count of that feed's
unread articles, and the read-state transitions move the count by exactly
one: `mark_article_read` on an existing unread article decrements its feed's
count, `mark_article_unread` on an existing read article increments it
(unique article ids assumed, as the `id INTEGER PRIMARY KEY` guarantees). -/
theorem c3_unread_count_correct :
    (∀ s id f, get_feed s id = some f →
      f.unread_count =
        ((s.articles.filter (fun x => x.feed_id = f.id && !x.is_read)).length : Int)) ∧
    (∀ s url f, get_feed_by_url s url = some f →
      f.unread_count =
        ((s.articles.filter (fun x => x.feed_id = f.id && !x.is_read)).length : Int)) ∧
    (∀ s f, f ∈ get_all_feeds s →
      f.unread_count =
        ((s.articles.filter (fun x => x.feed_id = f.id && !x.is_read)).length : Int)) ∧
    (∀ s a now, (s.articles.map (·.id)).Nodup → a ∈ s.articles → a.is_read = false →
      unreadCount (mark_article_read s a.id now) a.feed_id =
        unreadCount s a.feed_id - 1) ∧
    (∀ s a, (s.articles.map (·.id)).Nodup → a ∈ s.articles → a.is_read = true →
      unreadCount (mark_article_unread s a.id) a.feed_id =
        unreadCount s a.feed_id + 1) := by
  refine ⟨?_, ?_, ?_, ?_, ?_⟩
  · intro s id f h
    rcases Option.map_eq_some'.mp h with ⟨row, _, rfl⟩
    rfl
  · intro s url f h
    rcases Option.map_eq_some'.mp h with ⟨row, _, rfl⟩
    rfl
  · intro s f h
    rcases List.mem_map.mp h with ⟨row, _, rfl⟩
    rfl
  · intro s a now hnodup ha hunread
    have key := countP_mark_read s.articles a now hnodup ha hunread
    simp only [unreadCount, mark_article_read, ← List.countP_eq_length_filter] at *
    omega
  · intro s a hnodup ha hread
    have key := countP_mark_unread s.articles a hnodup ha hread
    simp only [unreadCount, mark_article_unread, ← List.countP_eq_length_filter] at *
    omega

/-- Witness for C3 on a concrete store: deriving the count through `get_feed`,
decrementing it by marking unread article 1 read, and incrementing it by
marking read article 3 unread. -/
theorem c3_unread_count_correct_witness :
    ((toFeed threeState ⟨1, "F", "https://f.example/feed", none, none, 0⟩).unread_count =
      ((threeState.articles.filter (fun x =>
        x.feed_id = (toFeed threeState ⟨1, "F", "https://f.example/feed", none, none, 0⟩).id &&
          !x.is_read)).length : Int)) ∧
    unreadCount (mark_article_read threeState 1 9) 1 = unreadCount threeState 1 - 1 ∧
    unreadCount (mark_article_unread threeState 3) 1 = unreadCount threeState 1 + 1 :=
  ⟨c3_unread_count_correct.1 threeState 1 _ rfl,
   c3_unread_count_correct.2.2.2.1 threeState
     ⟨1, 1, "a", "https://f.example/1", none, none, 0, false, none⟩ 9
     (by decide) (by decide) rfl,
   c3_unread_count_correct.2.2.2.2 threeState
     ⟨3, 1, "c", "https://f.example/3", none, none, 0, true, some 5⟩
     (by decide) (by decide) rfl⟩

/-- C4: inserting a feed whose URL is present fails with the engine's generic
database error; the caller layer `add_feed` surfaces the duplicate as
`FeedAlreadyExists`, a constructor distinct from `DatabaseError`; and with the
URL absent `insert_feed` appends the feed and returns it with its assigned
rowid and `unread_count = 0`. -/
theorem c4_duplicate_feed :
    (∀ s feed now, (∃ f ∈ s.feeds, f.url = feed.url) →
      ∃ msg, insert_feed s feed now = .error (.DatabaseError msg)) ∧
    (∀ s url fetched now f, get_feed_by_url s url = some f →
      add_feed s url fetched now = .error (.FeedAlreadyExists f.title)) ∧
    (∀ t msg, (PatinaError.FeedAlreadyExists t) ≠ (PatinaError.DatabaseError msg)) ∧
    (∀ s feed now, (∀ f ∈ s.feeds, f.url ≠ feed.url) →
      insert_feed s feed now = .ok
        (⟨freshId (s.feeds.map (·.id)), feed.title, feed.url, feed.site_url,
          some now, now, 0⟩,
         { s with
           feeds := s.feeds ++
             [⟨freshId (s.feeds.map (·.id)), feed.title, feed.url, feed.site_url,
               some now, now⟩],
           last_rowid := freshId (s.feeds.map (·.id)) })) := by
  refine ⟨?_, ?_, ?_, ?_⟩
  · rintro s feed now ⟨f, hf, hurl⟩
    have hdup : s.feeds.any (fun f => f.url = feed.url) = true :=
      List.any_eq_true.mpr ⟨f, hf, by simp [hurl]⟩
    exact ⟨"UNIQUE constraint failed: feeds.url", by simp [insert_feed, hdup]⟩
  · intro s url fetched now f h
    simp [add_feed, h]
  · intro t msg h
    cases h
  · intro s feed now h
    have hdup : s.feeds.any (fun f => f.url = feed.url) = false := by
      simp only [List.any_eq_false]
      intro f hf
      simpa using h f hf
    simp [insert_feed, hdup]

/-- Witness for C4: each hypothesis-bearing part applied at a concrete store. -/
theorem c4_duplicate_feed_witness :
    (∃ msg, insert_feed catsState ⟨"Pets2", "https://pets.example/feed", none, []⟩ 3 =
      .error (.DatabaseError msg)) ∧
    add_feed catsState "https://pets.example/feed" (.error .NotFound) 3 =
      .error (.FeedAlreadyExists "Pets") ∧
    insert_feed DbState.empty ⟨"N", "https://new.example/feed", none, []⟩ 3 =
      .ok (⟨1, "N", "https://new.example/feed", none, some 3, 3, 0⟩,
           ⟨[⟨1, "N", "https://new.example/feed", none, some 3, 3⟩], [], [], [], 1⟩) :=
  ⟨c4_duplicate_feed.1 catsState ⟨"Pets2", "https://pets.example/feed", none, []⟩ 3
     ⟨⟨1, "Pets", "https://pets.example/feed", none, none, 0⟩, by decide, rfl⟩,
   c4_duplicate_feed.2.1 catsState "https://pets.example/feed" (.error .NotFound) 3 _ rfl,
   c4_duplicate_feed.2.2.2 DbState.empty ⟨"N", "https://new.example/feed", none, []⟩ 3
     (by decide)⟩

/-- C8: `mark_article_read(id)` then `mark_article_unread(id)` leaves the
article with `is_read = false` and `read_at = NULL`, whatever its prior
state; the article row itself survives both updates. -/
theorem c8_read_unread_round_trip (s : DbState) (id now : Int)
    (h : ∃ a ∈ s.articles, a.id = id) :
    (∃ a ∈ (mark_article_unread (mark_article_read s id now) id).articles, a.id = id) ∧
    (∀ a ∈ (mark_article_unread (mark_article_read s id now) id).articles,
      a.id = id → a.is_read = false ∧ a.read_at = none) := by
  simp only [mark_article_read, mark_article_unread, List.map_map]
  constructor
  · rcases h with ⟨a, ha, haid⟩
    refine ⟨_, List.mem_map.mpr ⟨a, ha, rfl⟩, ?_⟩
    by_cases hid : a.id = id <;> simp [Function.comp, hid, haid]
  · intro b hb hbid
    rcases List.mem_map.mp hb with ⟨a, ha, rfl⟩
    by_cases hid : a.id = id
    · simp [Function.comp, hid]
    · exfalso
      simp [Function.comp, hid] at hbid

/-- Witness for C8 at a concrete store, on an article that was read. -/
theorem c8_read_unread_round_trip_witness :
    (∃ a ∈ (mark_article_unread (mark_article_read threeState 3 9) 3).articles, a.id = 3) ∧
    (∀ a ∈ (mark_article_unread (mark_article_read threeState 3 9) 3).articles,
      a.id = 3 → a.is_read = false ∧ a.read_at = none) :=
  c8_read_unread_round_trip threeState 3 9
    ⟨⟨3, 1, "c", "https://f.example/3", none, none, 0, true, some 5⟩, by decide, rfl⟩

/-- The no-conflict branch of `add_reading_pattern`: with no row for the
`(kind, value)` pair, a fresh row with weight 1.0 is appended. -/
theorem add_reading_pattern_fresh (s : DbState) (k v source : String) (now : Int)
    (h : s.patterns.any (fun p => p.pattern_type = k && p.value = v) = false) :
    (add_reading_pattern s k v source now).2 = { s with
      patterns := s.patterns ++ [⟨freshId (s.patterns.map (·.id)), k, v, source, 1, now⟩],
      last_rowid := freshId (s.patterns.map (·.id)) } := by
  simp [add_reading_pattern, h]

/-- The conflict branch of `add_reading_pattern`: with a row for the
`(kind, value)` pair present, matching rows get `weight := weight + 0.1` and
nothing is appended. -/
theorem add_reading_pattern_dup (s : DbState) (k v source : String) (now : Int)
    (h : s.patterns.any (fun p => p.pattern_type = k && p.value = v) = true) :
    (add_reading_pattern s k v source now).2 = { s with
      patterns := s.patterns.map (fun p => if p.pattern_type = k && p.value = v then
        { p with weight := p.weight + 1/10 } else p) } := by
  simp [add_reading_pattern, h]

/-- C9: adding the same `(kind, value)` reading pattern twice, starting from a
store without it, leaves exactly one row for the pair — the table grows by one
row in total — and that row's weight is `1.0 + 0.1 = 1.1`. -/
theorem c9_pattern_weight_accumulation (s : DbState) (k v source : String)
    (now1 now2 : Int)
    (habs : s.patterns.countP (fun p => p.pattern_type = k && p.value = v) = 0) :
    (((add_reading_pattern (add_reading_pattern s k v source now1).2
        k v source now2).2).patterns.countP
      (fun p => p.pattern_type = k && p.value = v) = 1) ∧
    ((add_reading_pattern (add_reading_pattern s k v source now1).2
        k v source now2).2).patterns.length = s.patterns.length + 1 ∧
    ∃ p ∈ ((add_reading_pattern (add_reading_pattern s k v source now1).2
        k v source now2).2).patterns,
      p.pattern_type = k ∧ p.value = v ∧ p.weight = 11/10 := by
  have hnone : ∀ p ∈ s.patterns, ¬(p.pattern_type = k ∧ p.value = v) := by
    intro p hp hkv
    have hzero := List.countP_eq_zero.mp habs p hp
    simp [hkv.1, hkv.2] at hzero
  have hany : s.patterns.any (fun p => p.pattern_type = k && p.value = v) = false := by
    simp only [List.any_eq_false]
    intro p hp
    simpa using hnone p hp
  have hany2 : ((s.patterns ++
      [⟨freshId (s.patterns.map (·.id)), k, v, source, 1, now1⟩] :
      List PatternRow).any (fun p => p.pattern_type = k && p.value = v)) = true := by
    simp [List.any_append]
  have hupd : (s.patterns ++
      [⟨freshId (s.patterns.map (·.id)), k, v, source, 1, now1⟩] :
      List PatternRow).map
      (fun p => if p.pattern_type = k && p.value = v then
        { p with weight := p.weight + 1/10 } else p) =
      s.patterns ++ [⟨freshId (s.patterns.map (·.id)), k, v, source, 1 + 1/10, now1⟩] := by
    rw [List.map_append]
    congr 1
    · have hcongr : ∀ p ∈ s.patterns, (if p.pattern_type = k && p.value = v then
          { p with weight := p.weight + 1/10 } else p) = id p := by
        intro p hp
        have hfalse : ¬((p.pattern_type = k && p.value = v : Bool) = true) := by
          simpa using hnone p hp
        rw [if_neg hfalse]
        rfl
      rw [List.map_congr_left hcongr, List.map_id]
    · simp
  rw [add_reading_pattern_fresh s k v source now1 hany,
     add_reading_pattern_dup _ k v source now2 hany2]
  refine ⟨?_, ?_, ?_⟩
  · show (((s.patterns ++
        [⟨freshId (s.patterns.map (·.id)), k, v, source, 1, now1⟩] :
        List PatternRow).map
        (fun p => if p.pattern_type = k && p.value = v then
          { p with weight := p.weight + 1/10 } else p)).countP
      (fun p => p.pattern_type = k && p.value = v)) = 1
    rw [hupd]
    simp [List.countP_append, habs]
  · show ((s.patterns ++
        [⟨freshId (s.patterns.map (·.id)), k, v, source, 1, now1⟩] :
        List PatternRow).map
        (fun p => if p.pattern_type = k && p.value = v then
          { p with weight := p.weight + 1/10 } else p)).length =
      s.patterns.length + 1
    rw [hupd]
    simp
  · show ∃ p ∈ (s.patterns ++
        [⟨freshId (s.patterns.map (·.id)), k, v, source, 1, now1⟩] :
        List PatternRow).map
        (fun p => if p.pattern_type = k && p.value = v then
          { p with weight := p.weight + 1/10 } else p),
      p.pattern_type = k ∧ p.value = v ∧ p.weight = 11/10
    rw [hupd]
    refine ⟨⟨freshId (s.patterns.map (·.id)), k, v, source, 1 + 1/10, now1⟩,
      List.mem_append_right _ (List.mem_singleton.mpr rfl), rfl, rfl, by norm_num⟩

/-- Witness for C9: two adds of `("topic", "rust")` on the empty store. -/
theorem c9_pattern_weight_accumulation_witness :
    (((add_reading_pattern (add_reading_pattern DbState.empty "topic" "rust" "manual" 1).2
        "topic" "rust" "manual" 2).2).patterns.countP
      (fun p => p.pattern_type = "topic" && p.value = "rust") = 1) ∧
    ((add_reading_pattern (add_reading_pattern DbState.empty "topic" "rust" "manual" 1).2
        "topic" "rust" "manual" 2).2).patterns.length = DbState.empty.patterns.length + 1 ∧
    ∃ p ∈ ((add_reading_pattern (add_reading_pattern DbState.empty "topic" "rust" "manual" 1).2
        "topic" "rust" "manual" 2).2).patterns,
      p.pattern_type = "topic" ∧ p.value = "rust" ∧ p.weight = 11/10 :=
  c9_pattern_weight_accumulation DbState.empty "topic" "rust" "manual" 1 2 (by decide)

/-- Keys produced by `bumpCount` satisfy any property that holds of the
existing keys and of the bumped word (bumping changes counts, never keys). -/
theorem bumpCount_keys (P : String → Prop) (m : List (String × Nat)) (w : String)
    (k : Nat) (hm : ∀ p ∈ m, P p.1) (hw : P w) : ∀ p ∈ bumpCount m w k, P p.1 := by
  intro p hp
  unfold bumpCount at hp
  by_cases h : m.any (fun p => p.1 = w) = true
  · rw [if_pos h] at hp
    rcases List.mem_map.mp hp with ⟨q, hq, rfl⟩
    by_cases hqw : q.1 = w
    · simpa [hqw] using hm q hq
    · simpa [hqw] using hm q hq
  · rw [if_neg h] at hp
    rcases List.mem_append.mp hp with hp | hp
    · exact hm p hp
    · rcases List.mem_singleton.mp hp with rfl
      exact hw

/-- Every key of the accumulated word-count map is a valid topic word. -/
theorem foldl_counts_keys (ws : List String) (k : Nat) :
    ∀ m, (∀ p ∈ m, is_valid_topic_word p.1 = true) →
    ∀ p ∈ ws.foldl (fun m word =>
        if is_valid_topic_word word then bumpCount m word k else m) m,
      is_valid_topic_word p.1 = true := by
  induction ws with
  | nil => exact fun m hm => hm
  | cons w ws ih =>
    intro m hm
    simp only [List.foldl_cons]
    by_cases hw : is_valid_topic_word w = true
    · rw [if_pos hw]
      exact ih _ (bumpCount_keys (fun x => is_valid_topic_word x = true) m w k hm hw)
    · rw [if_neg hw]
      exact ih _ hm

/-- A valid topic word is not a stop word. -/
theorem valid_not_stop_word (w : String) (h : is_valid_topic_word w = true) :
    w ∉ STOP_WORDS := by
  intro hmem
  simp [is_valid_topic_word] at h
  exact h.2.1 hmem

/-- Every key of the word-count map of `extract_topics` is a valid topic
word. -/
theorem wordCounts_keys (title : String) (summary : Option String) :
    ∀ p ∈ wordCounts title summary, is_valid_topic_word p.1 = true := by
  have htitle : ∀ p ∈ titleCounts title, is_valid_topic_word p.1 = true :=
    foldl_counts_keys (tokenize title) 3 [] (by intro p hp; cases hp)
  rcases summary with _ | s
  · exact htitle
  · exact foldl_counts_keys (tokenize s) 1 (titleCounts title) htitle

/-- No stop word ever reaches the output of `extract_topics`: output words are
keys of the word-count map, which only valid topic words enter. -/
theorem extract_topics_no_stop_word (title : String) (summary : Option String)
    (l : List (String × ℚ)) (h : extract_topics title summary = .ok l) :
    ∀ w q, (w, q) ∈ l → w ∉ STOP_WORDS := by
  intro w q hwq hstop
  simp only [extract_topics] at h
  split_ifs at h with htot
  · -- degenerate input: the result is the empty list
    rw [show l = [] from (Except.ok.injEq _ _).mp h.symm] at hwq
    cases hwq
  · -- otherwise the output word is a key of the word-count map
    rw [show l = (((((wordCounts title summary).map
        (fun p => (p.1, (p.2 : ℚ) /
          (((((wordCounts title summary).map (·.2)).sum : Nat)) : ℚ)))).filter
          (fun p => 5/100 ≤ p.2)).insertionSort (fun a b => b.2 ≤ a.2)).take 10)
        from (Except.ok.injEq _ _).mp h.symm] at hwq
    have hsortmem := List.take_subset 10 _ hwq
    have hfiltermem := (List.perm_insertionSort
      (fun (a b : String × ℚ) => b.2 ≤ a.2) _).mem_iff.mp hsortmem
    have hmapmem := (List.mem_filter.mp hfiltermem).1
    rcases List.mem_map.mp hmapmem with ⟨p, hp, hpe⟩
    have hvalid := wordCounts_keys title summary p hp
    rw [show p.1 = w from congrArg Prod.fst hpe] at hvalid
    exact valid_not_stop_word w hvalid hstop

/-- C5: `extract_topics` is pure and deterministic (it is a function of its
arguments); on the claimed input it returns a list containing "rust" and
"programming"; on empty title and summary it returns `ok []`, not an error;
and no stop word ever appears in any output. -/
theorem c5_extract_topics :
    (∃ l, extract_topics "Rust Programming Language Guide"
        (some "Learn how to write efficient systems programming with Rust") = .ok l ∧
      "rust" ∈ l.map Prod.fst ∧ "programming" ∈ l.map Prod.fst) ∧
    (extract_topics "" (some "") = .ok []) ∧
    (∀ title summary l w q, extract_topics title summary = .ok l → (w, q) ∈ l →
      w ∉ STOP_WORDS) := by
  refine ⟨⟨_, rfl, by decide, by decide⟩, rfl, ?_⟩
  intro title summary l w q h hwq
  exact extract_topics_no_stop_word title summary l h w q hwq

/-- Witness for C5's universally quantified part: at the concrete input,
`("rust", 2/9)` is in the output, and the theorem yields that "rust" is not a
stop word. -/
theorem c5_extract_topics_witness :
    extract_topics "Rust Programming Language Guide"
        (some "Learn how to write efficient systems programming with Rust") =
      .ok [("rust", 2/9), ("programming", 2/9), ("language", 1/6), ("guide", 1/6),
           ("learn", 1/18), ("write", 1/18), ("efficient", 1/18), ("systems", 1/18)] ∧
    "rust" ∉ STOP_WORDS :=
  ⟨rfl,
   c5_extract_topics.2.2 "Rust Programming Language Guide"
     (some "Learn how to write efficient systems programming with Rust")
     [("rust", 2/9), ("programming", 2/9), ("language", 1/6), ("guide", 1/6),
      ("learn", 1/18), ("write", 1/18), ("efficient", 1/18), ("systems", 1/18)]
     "rust" (2/9) rfl (by decide)⟩

/-- C6 counterexample: the claim quantifies over every state with zero
inclusion patterns, but such a state may still hold `excluded` patterns, and
their post-filter can push the result below `limit`.  `catsState` has no
inclusion pattern and one unread article, yet `get_serendipity_articles 1`
returns nothing, because the only candidate's title matches the exclusion
value "cats". -/
theorem c6_fallback_counterexample :
    (∀ p ∈ catsState.patterns,
      p.pattern_type ≠ "topic" ∧ p.pattern_type ≠ "keyword") ∧
    (catsState.articles.filter (fun a => !a.is_read)).length = 1 ∧
    (get_serendipity_articles catsState 1 id).length = 0 := by
  decide

/-- C6 (amended): in a store with no inclusion pattern (kind `topic` or
`keyword`) and also no `excluded` pattern, whose unread articles all belong to
existing feeds and number at least `limit`, the surfacer returns exactly
`limit` articles, all unread, and they are just the first `limit` of the
randomly ordered unread articles — no topic-score ranking is involved. -/
theorem c6_fallback_no_patterns (s : DbState) (limit : Nat)
    (rand : List ArticleRow → List ArticleRow)
    (hrand : (rand (unreadJoined s)).Perm (unreadJoined s))
    (hincl : ∀ p ∈ s.patterns, p.pattern_type ≠ "topic" ∧ p.pattern_type ≠ "keyword")
    (hexcl : ∀ p ∈ s.patterns, p.pattern_type ≠ "excluded")
    (hN : limit ≤ (unreadJoined s).length) :
    get_serendipity_articles s limit rand =
      ((rand (unreadJoined s)).take limit).map (toArticle s) ∧
    (get_serendipity_articles s limit rand).length = limit ∧
    ∀ a ∈ get_serendipity_articles s limit rand, a.is_read = false := by
  have hperm := List.perm_insertionSort
    (fun (a b : PatternRow) => b.weight ≤ a.weight) s.patterns
  have htopics : (get_reading_patterns s).filter
      (fun p => p.pattern_type = "topic" || p.pattern_type = "keyword") = [] := by
    rw [List.filter_eq_nil_iff]
    intro p hp
    have hi := hincl p (hperm.subset hp)
    simp [hi.1, hi.2]
  have hexcl2 : (get_reading_patterns s).filter
      (fun p => p.pattern_type = "excluded") = [] := by
    rw [List.filter_eq_nil_iff]
    intro p hp
    simp [hexcl p (hperm.subset hp)]
  have hmain : get_serendipity_articles s limit rand =
      ((rand (unreadJoined s)).take limit).map (toArticle s) := by
    simp only [get_serendipity_articles, htopics, hexcl2, List.map_nil,
      get_unread_articles_with_topics, List.isEmpty_nil, if_true]
    rw [List.map_take, List.map_take, List.take_take]
    congr 1
    omega
  refine ⟨hmain, ?_, ?_⟩
  · rw [hmain, List.length_map, List.length_take, hrand.length_eq]
    omega
  · intro a ha
    rw [hmain] at ha
    rcases List.mem_map.mp ha with ⟨row, hrow, rfl⟩
    have hrow2 : row ∈ unreadJoined s := hrand.subset (List.take_subset _ _ hrow)
    have hcond := (List.mem_filter.mp hrow2).2
    simp only [Bool.and_eq_true, Bool.not_eq_true'] at hcond
    exact hcond.1

/-- Witness for C6 (amended) on a concrete store with two unread articles,
no patterns, and `limit = 1`. -/
theorem c6_fallback_no_patterns_witness :
    get_serendipity_articles threeState 1 id =
      ((id (unreadJoined threeState)).take 1).map (toArticle threeState) ∧
    (get_serendipity_articles threeState 1 id).length = 1 ∧
    ∀ a ∈ get_serendipity_articles threeState 1 id, a.is_read = false :=
  c6_fallback_no_patterns threeState 1 id (List.Perm.refl _)
    (by decide) (by decide) (by decide)

/-- C7: with an `excluded` pattern of value `v` in the store, no article the
surfacer returns contains `v` in its lowered title or lowered summary (the
code's rendering of a case-insensitive substring match). -/
theorem c7_exclusion (s : DbState) (limit : Nat)
    (rand : List ArticleRow → List ArticleRow) (v : String)
    (hp : ∃ p ∈ s.patterns, p.pattern_type = "excluded" ∧ p.value = v) :
    ∀ a ∈ get_serendipity_articles s limit rand,
      strContains (strToLower a.title) (strToLower v) = false ∧
      strContains ((a.summary.map strToLower).getD "") (strToLower v) = false := by
  intro a ha
  rcases hp with ⟨p, hpmem, hptype, hpval⟩
  have hsortmem : p ∈ get_reading_patterns s :=
    (List.perm_insertionSort (fun (a b : PatternRow) => b.weight ≤ a.weight)
      s.patterns).symm.subset hpmem
  have hvmem : v ∈ ((get_reading_patterns s).filter
      (fun p => p.pattern_type = "excluded")).map (·.value) :=
    List.mem_map.mpr ⟨p, List.mem_filter.mpr ⟨hsortmem, by simp [hptype]⟩, hpval⟩
  have hne : (((get_reading_patterns s).filter
      (fun p => p.pattern_type = "excluded")).map (·.value)).isEmpty = false := by
    cases hie : (((get_reading_patterns s).filter
        (fun p => p.pattern_type = "excluded")).map (·.value)).isEmpty
    · rfl
    · rw [List.isEmpty_iff.mp hie] at hvmem
      cases hvmem
  simp only [get_serendipity_articles, hne, Bool.false_eq_true, if_false] at ha
  have hfil := (List.mem_filter.mp (List.take_subset _ _ ha)).2
  simp only [Bool.not_eq_true'] at hfil
  have hall := List.any_eq_false.mp hfil v hvmem
  simp only [Bool.or_eq_true, not_or] at hall
  exact ⟨Bool.eq_false_iff.mpr hall.1, Bool.eq_false_iff.mpr hall.2⟩

/-- Witness for C7: `dogsState` holds `excluded="cats"` and the surfacer
returns its dog article, whose title and summary are "cats"-free. -/
theorem c7_exclusion_witness :
    strContains (strToLower "Dogs are nice") (strToLower "cats") = false ∧
    strContains ((some "A dog story"
      |>.map strToLower).getD "") (strToLower "cats") = false :=
  c7_exclusion dogsState 5 id "cats"
    ⟨⟨1, "excluded", "cats", "manual", 1, 0⟩, by decide, rfl, rfl⟩
    (toArticle dogsState
      ⟨1, 1, "Dogs are nice", "https://pets.example/a2", some "A dog story",
        none, 0, false, none⟩)
    (by decide)

/-- Bumping the weight of the `(k, v)` rows leaves the rows of any other
`(kind, value)` key untouched. -/
theorem filter_key_map_bump (l : List PatternRow) (k v k' v' : String)
    (hne : ¬(k' = k ∧ v' = v)) :
    (l.map (fun p => if p.pattern_type = k && p.value = v then
      { p with weight := p.weight + 1/10 } else p)).filter
      (fun p => p.pattern_type = k' && p.value = v') =
    l.filter (fun p => p.pattern_type = k' && p.value = v') := by
  induction l with
  | nil => rfl
  | cons b t ih =>
    simp only [List.map_cons, List.filter_cons]
    by_cases hb : (b.pattern_type = k && b.value = v) = true
    · rw [if_pos hb]
      by_cases hb' : (b.pattern_type = k' && b.value = v') = true
      · exfalso
        apply hne
        simp only [Bool.and_eq_true, decide_eq_true_eq] at hb hb'
        exact ⟨hb'.1 ▸ hb.1 ▸ rfl, hb'.2 ▸ hb.2 ▸ rfl⟩
      · rw [if_neg hb', if_neg hb', ih]
    · rw [if_neg hb]
      by_cases hb' : (b.pattern_type = k' && b.value = v') = true
      · rw [if_pos hb', if_pos hb', ih]
      · rw [if_neg hb', if_neg hb', ih]

/-- `add_reading_pattern` of key `(k, v)` does not touch the rows of any
other key. -/
theorem add_reading_pattern_other_key (s : DbState) (k v source : String)
    (now : Int) (k' v' : String) (hne : ¬(k' = k ∧ v' = v)) :
    ((add_reading_pattern s k v source now).2).patterns.filter
      (fun p => p.pattern_type = k' && p.value = v') =
    s.patterns.filter (fun p => p.pattern_type = k' && p.value = v') := by
  by_cases hd : s.patterns.any (fun p => p.pattern_type = k && p.value = v) = true
  · rw [add_reading_pattern_dup s k v source now hd]
    exact filter_key_map_bump s.patterns k v k' v' hne
  · rw [add_reading_pattern_fresh s k v source now (by simpa using hd)]
    rw [List.filter_append]
    have hrow : ((⟨freshId (s.patterns.map (·.id)), k, v, source, 1, now⟩ :
        PatternRow).pattern_type = k' && (⟨freshId (s.patterns.map (·.id)), k, v,
        source, 1, now⟩ : PatternRow).value = v') = false := by
      simp only [Bool.and_eq_false_iff, decide_eq_false_iff_not]
      by_cases h1 : k' = k
      · exact Or.inr fun h2 => hne ⟨h1, h2.symm⟩
      · exact Or.inl fun h2 => h1 h2.symm
    simp [List.filter_cons, hrow]

/-- After `add_reading_pattern k v`, a row with key `(k, v)` exists. -/
theorem add_reading_pattern_key_exists (s : DbState) (k v source : String)
    (now : Int) :
    ∃ p ∈ ((add_reading_pattern s k v source now).2).patterns,
      p.pattern_type = k ∧ p.value = v := by
  by_cases hd : s.patterns.any (fun p => p.pattern_type = k && p.value = v) = true
  · rw [add_reading_pattern_dup s k v source now hd]
    rcases List.any_eq_true.mp hd with ⟨p, hp, hcond⟩
    have hkv : p.pattern_type = k ∧ p.value = v := by simpa using hcond
    refine ⟨{ p with weight := p.weight + 1/10 },
      List.mem_map.mpr ⟨p, hp, ?_⟩, hkv.1, hkv.2⟩
    rw [if_pos hcond]
  · rw [add_reading_pattern_fresh s k v source now (by simpa using hd)]
    exact ⟨⟨freshId (s.patterns.map (·.id)), k, v, source, 1, now⟩,
      List.mem_append_right _ (List.mem_singleton.mpr rfl), rfl, rfl⟩

/-- `add_reading_pattern` never removes a key: any `(kind, value)` present
before is present after. -/
theorem add_reading_pattern_key_preserved (s : DbState) (k v source : String)
    (now : Int) (k' v' : String)
    (hex : ∃ p ∈ s.patterns, p.pattern_type = k' ∧ p.value = v') :
    ∃ p ∈ ((add_reading_pattern s k v source now).2).patterns,
      p.pattern_type = k' ∧ p.value = v' := by
  rcases hex with ⟨p, hp, h1, h2⟩
  by_cases hd : s.patterns.any (fun p => p.pattern_type = k && p.value = v) = true
  · rw [add_reading_pattern_dup s k v source now hd]
    by_cases hc : (p.pattern_type = k && p.value = v) = true
    · exact ⟨{ p with weight := p.weight + 1/10 },
        List.mem_map.mpr ⟨p, hp, by rw [if_pos hc]⟩, h1, h2⟩
    · exact ⟨p, List.mem_map.mpr ⟨p, hp, by rw [if_neg hc]⟩, h1, h2⟩
  · rw [add_reading_pattern_fresh s k v source now (by simpa using hd)]
    exact ⟨p, List.mem_append_left _ hp, h1, h2⟩

/-- The promotion fold leaves every key other than the promoted
`("topic", value)` keys untouched. -/
theorem fold_promote_other_key (l : List (String × ℚ)) (s : DbState) (now : Int)
    (k' v' : String) (h : ∀ x ∈ l, 2 ≤ x.2 → ¬(k' = "topic" ∧ v' = x.1)) :
    (l.foldl (fun st p => if 2 ≤ p.2 then
        (add_reading_pattern st "topic" p.1 "auto" now).2 else st) s).patterns.filter
      (fun p => p.pattern_type = k' && p.value = v') =
    s.patterns.filter (fun p => p.pattern_type = k' && p.value = v') := by
  induction l generalizing s with
  | nil => rfl
  | cons x t ih =>
    simp only [List.foldl_cons]
    by_cases hx : (2:ℚ) ≤ x.2
    · rw [if_pos hx, ih _ (fun y hy => h y (List.mem_cons_of_mem _ hy))]
      exact add_reading_pattern_other_key s "topic" x.1 "auto" now k' v'
        (h x (List.mem_cons_self _ _) hx)
    · rw [if_neg hx]
      exact ih _ (fun y hy => h y (List.mem_cons_of_mem _ hy))

/-- The promotion fold preserves the existence of any key. -/
theorem fold_promote_key_preserved (l : List (String × ℚ)) (s : DbState)
    (now : Int) (k' v' : String)
    (hex : ∃ p ∈ s.patterns, p.pattern_type = k' ∧ p.value = v') :
    ∃ p ∈ (l.foldl (fun st p => if 2 ≤ p.2 then
        (add_reading_pattern st "topic" p.1 "auto" now).2 else st) s).patterns,
      p.pattern_type = k' ∧ p.value = v' := by
  induction l generalizing s with
  | nil => exact hex
  | cons y t ih =>
    simp only [List.foldl_cons]
    by_cases hy : (2:ℚ) ≤ y.2
    · rw [if_pos hy]
      exact ih _ (add_reading_pattern_key_preserved s "topic" y.1 "auto" now k' v' hex)
    · rw [if_neg hy]
      exact ih _ hex

/-- Every list entry with score at least 2 ends up as an existing
`("topic", value)` key after the promotion fold. -/
theorem fold_promote_key_exists (l : List (String × ℚ)) (s : DbState) (now : Int)
    (x : String × ℚ) (hx : x ∈ l) (hs : (2:ℚ) ≤ x.2) :
    ∃ p ∈ (l.foldl (fun st p => if 2 ≤ p.2 then
        (add_reading_pattern st "topic" p.1 "auto" now).2 else st) s).patterns,
      p.pattern_type = "topic" ∧ p.value = x.1 := by
  induction l generalizing s with
  | nil => cases hx
  | cons y t ih =>
    simp only [List.foldl_cons]
    rcases List.mem_cons.mp hx with rfl | hxt
    · rw [if_pos hs]
      exact fold_promote_key_preserved t _ now "topic" x.1
        (add_reading_pattern_key_exists s "topic" x.1 "auto" now)
    · by_cases hy : (2:ℚ) ≤ y.2
      · rw [if_pos hy]
        exact ih _ hxt
      · rw [if_neg hy]
        exact ih _ hxt

/-- C10: `update_auto_patterns` inspects only the top-20 read-topic
aggregates.  A key that is not a promoted `("topic", t)` with `(t, score)`
among the top 20 and `score ≥ 2.0` keeps exactly its previous rows; every
topic among the top 20 with score ≥ 2.0 is present afterwards; and in
particular a topic absent from the top-20 list — however large its aggregate
score — has its pattern rows unchanged. -/
theorem c10_auto_promotion_top20 :
    (∀ s now k' v',
      (¬∃ x ∈ get_top_read_topics s 20, 2 ≤ x.2 ∧ k' = "topic" ∧ v' = x.1) →
      (update_auto_patterns s now).patterns.filter
        (fun p => p.pattern_type = k' && p.value = v') =
      s.patterns.filter (fun p => p.pattern_type = k' && p.value = v')) ∧
    (∀ s now t sc, (t, sc) ∈ get_top_read_topics s 20 → (2:ℚ) ≤ sc →
      ∃ p ∈ (update_auto_patterns s now).patterns,
        p.pattern_type = "topic" ∧ p.value = t) ∧
    (∀ s now t, t ∉ (get_top_read_topics s 20).map Prod.fst →
      (update_auto_patterns s now).patterns.filter
        (fun p => p.pattern_type = "topic" && p.value = t) =
      s.patterns.filter (fun p => p.pattern_type = "topic" && p.value = t)) := by
  refine ⟨?_, ?_, ?_⟩
  · intro s now k' v' h
    unfold update_auto_patterns
    apply fold_promote_other_key
    intro x hx hsc hkv
    exact h ⟨x, hx, hsc, hkv.1, hkv.2⟩
  · intro s now t sc hmem hsc
    unfold update_auto_patterns
    exact fold_promote_key_exists _ s now (t, sc) hmem hsc
  · intro s now t h
    unfold update_auto_patterns
    apply fold_promote_other_key
    intro x hx _ hkv
    exact h (hkv.2 ▸ List.mem_map.mpr ⟨x, hx, rfl⟩)

/-- Witness for C10 on a store whose single read topic is `("rust", 3)`:
"rust" is promoted, while `("topic", "go")` and `("keyword", "rust")` rows
are untouched. -/
theorem c10_auto_promotion_top20_witness :
    (∃ p ∈ (update_auto_patterns topicState 5).patterns,
      p.pattern_type = "topic" ∧ p.value = "rust") ∧
    (update_auto_patterns topicState 5).patterns.filter
        (fun p => p.pattern_type = "topic" && p.value = "go") =
      topicState.patterns.filter
        (fun p => p.pattern_type = "topic" && p.value = "go") ∧
    (update_auto_patterns topicState 5).patterns.filter
        (fun p => p.pattern_type = "keyword" && p.value = "rust") =
      topicState.patterns.filter
        (fun p => p.pattern_type = "keyword" && p.value = "rust") :=
  ⟨c10_auto_promotion_top20.2.1 topicState 5 "rust" 3 (by decide) (by decide),
   c10_auto_promotion_top20.2.2 topicState 5 "go" (by decide),
   c10_auto_promotion_top20.1 topicState 5 "keyword" "rust" (by decide)⟩
